import Mathlib

/-!
Verification of `cec_auto_audio.py`: a shallow embedding of the frame
parser (`FRAME_RE` + `parse_frame`) and of the injection decision engine
(the state held by `main`'s watch loop: `pending` and
`last_injection_time`, updated once per line read from the bus monitor).

Times are modelled as rationals (the source uses `time.time()` floats but
only adds constants and compares, so ℚ is a faithful carrier).  The
transport write is modelled by a boolean `wk` (`true` = write succeeds,
`false` = `BrokenPipeError` is raised, which breaks the loop).
-/

/-- Whitespace as matched by the regex class `\s` (ASCII part). -/
def isPySpace (c : Char) : Bool :=
  c = ' ' || c = '\t' || c = '\n' || c = '\r' || c = Char.ofNat 11 || c = Char.ofNat 12

/-- Character class `[0-9A-Fa-f]` of `FRAME_RE`. -/
def isHexChar (c : Char) : Bool :=
  (48 ≤ c.toNat && c.toNat ≤ 57) || (65 ≤ c.toNat && c.toNat ≤ 70) ||
    (97 ≤ c.toNat && c.toNat ≤ 102)

/-- Character class `[0-9A-Fa-f:]` of the optional data group of `FRAME_RE`. -/
def isHexColon (c : Char) : Bool :=
  isHexChar c || c = ':'

/-- Value of a single hex digit, as `int(c, 16)` computes it on a digit
accepted by `isHexChar`. -/
def hexVal (c : Char) : Nat :=
  if c.toNat ≤ 57 then c.toNat - 48
  else if c.toNat ≤ 70 then c.toNat - 55
  else c.toNat - 87

/-- `int(s, 16)` on a nonempty run of hex digits. -/
def parseHexRun (cs : List Char) : Nat :=
  cs.foldl (fun a c => a * 16 + hexVal c) 0

/-- The captured groups of a successful `FRAME_RE` match: the two header
digits, the two opcode digits, and the optional raw data group. -/
structure RawMatch where
  h1 : Char
  h2 : Char
  o1 : Char
  o2 : Char
  dataRaw : Option (List Char)
deriving DecidableEq, Repr

/-- Attempt of `FRAME_RE` after the literal `>>` and the run `\s+` have
been consumed: `([0-9A-Fa-f]{2}):([0-9A-Fa-f]{2})(?:[:]([0-9A-Fa-f:]+))?`.
The final `+` is greedy and last, so it is an exact `takeWhile`. -/
def matchBody (cs : List Char) : Option RawMatch :=
  match cs with
  | h1 :: h2 :: ':' :: o1 :: o2 :: rest =>
    if isHexChar h1 && isHexChar h2 && isHexChar o1 && isHexChar o2 then
      match rest with
      | ':' :: rest2 =>
        if rest2.takeWhile isHexColon = [] then some ⟨h1, h2, o1, o2, none⟩
        else some ⟨h1, h2, o1, o2, some (rest2.takeWhile isHexColon)⟩
      | _ => some ⟨h1, h2, o1, o2, none⟩
    else none
  | _ => none

/-- Attempt of the full pattern `>>\s+...` anchored at the head of `cs`.
`\s+` is greedy; since no whitespace character is a hex digit,
backtracking inside `\s+` can never make the rest match, so dropping the
maximal run is exact. -/
def matchFrameAt (cs : List Char) : Option RawMatch :=
  match cs with
  | '>' :: '>' :: c :: rest =>
    if isPySpace c then matchBody (rest.dropWhile isPySpace) else none
  | _ => none

/-- `FRAME_RE.search`: the match at the leftmost starting index, if any. -/
def searchFrame : List Char → Option RawMatch
  | [] => none
  | c :: cs =>
    match matchFrameAt (c :: cs) with
    | some r => some r
    | none => searchFrame cs

/-- The record returned by `parse_frame`: `(src_la, dst_la, opcode, data)`. -/
structure Frame where
  src : Nat
  dst : Nat
  opcode : Nat
  data : List Nat
deriving DecidableEq, Repr

/-- Body of `parse_frame` applied to the groups of a successful match:
`header = int(group(1), 16)`, `src_la = header >> 4`,
`dst_la = header & 0xF`, and the data bytes are the nonempty
colon-separated chunks of the optional group, each read by `int(b, 16)`. -/
def frameOfRaw (r : RawMatch) : Frame :=
  let header := hexVal r.h1 * 16 + hexVal r.h2
  { src := header >>> 4
    dst := header &&& 0xF
    opcode := hexVal r.o1 * 16 + hexVal r.o2
    data :=
      match r.dataRaw with
      | none => []
      | some run => ((run.splitOn ':').filter (fun b => b ≠ [])).map parseHexRun }

/-- `parse_frame(line)`: `None` when `FRAME_RE.search` fails, otherwise
the structured frame. -/
def parse_frame (line : String) : Option Frame :=
  match searchFrame line.data with
  | none => none
  | some r => some (frameOfRaw r)

/-- Configuration constants of the script (`CONSOLE_LAS`, `DENON_LA`,
`PENDING_TIMEOUT_SEC`, `MIN_INJECTION_INTERVAL_SEC`, `DRY_RUN`). -/
structure Cfg where
  consoleLAs : List Nat
  denonLA : Nat
  pendingTimeout : ℚ
  minInjectionInterval : ℚ
  dryRun : Bool
deriving DecidableEq, Repr

/-- The default configuration at the top of the script. -/
def cfg0 : Cfg :=
  { consoleLAs := [4, 8, 11]
    denonLA := 5
    pendingTimeout := 1/2
    minInjectionInterval := 3
    dryRun := false }

/-- The `pending` dict: keys `la`, `phys`, `deadline`. -/
structure Pending where
  la : Nat
  phys : String
  deadline : ℚ
deriving DecidableEq, Repr

/-- The watch loop's mutable state: `pending` (None or a dict) and
`last_injection_time` (initially `0.0`). -/
structure St where
  pending : Option Pending
  lastInjectionTime : ℚ
deriving DecidableEq, Repr

/-- Initial state of `main`: `pending = None`, `last_injection_time = 0.0`. -/
def initSt : St :=
  { pending := none, lastInjectionTime := 0 }

/-- Python `f"{n:02x}"`: lowercase hex, zero-padded to at least 2 digits. -/
def hex02 (n : Nat) : String :=
  let ds := Nat.toDigits 16 n
  ⟨if ds.length < 2 then '0' :: ds else ds⟩

/-- The `phys` string `f"{data[0]:02x}:{data[1]:02x}"` (used only under the
guard `len(data) >= 2`, so the defaults are never taken there). -/
def physOf (data : List Nat) : String :=
  hex02 (data.getD 0 0) ++ ":" ++ hex02 (data.getD 1 0)

/-- Condition 1 of the loop: `src_la == DENON_LA and dst_la == 0xF and
opcode == 0x72 and data and data[0] == 0x01`. -/
def isDenonOn (cfg : Cfg) (f : Frame) : Bool :=
  f.src == cfg.denonLA && f.dst == 15 && f.opcode == 0x72 && f.data.head? == some 1

/-- Condition 2 of the loop: `dst_la == 0xF and opcode == 0x82 and
len(data) >= 2` (an Active Source broadcast). -/
def isActiveSrc (f : Frame) : Bool :=
  f.dst == 15 && f.opcode == 0x82 && decide (2 ≤ f.data.length)

/-- The corrective command written on injection. -/
def injectCmd : String := "tx 15:70:00:00"

/-- Step 3 of the loop (the timeout check): run with the current time
`now`; `wk` tells whether the write to `proc.stdin` succeeds (`false`
models `BrokenPipeError`).  Returns the next state, the commands written,
and `false` exactly when the loop `break`s. -/
def timeoutCheck (cfg : Cfg) (wk : Bool) (s : St) (now : ℚ) :
    St × List String × Bool :=
  match s.pending with
  | none => (s, [], true)
  | some p =>
    if p.deadline ≤ now then
      if now - s.lastInjectionTime < cfg.minInjectionInterval then
        ({ s with pending := none }, [], true)
      else if cfg.dryRun then
        ({ s with pending := none }, [], true)
      else if wk then
        ({ pending := none, lastInjectionTime := now }, [injectCmd], true)
      else
        (s, [], false)
    else (s, [], true)

/-- One iteration of `for line in proc.stdout`: parse the line; handle a
Denon Set System Audio Mode broadcast (clears `pending`); else handle an
Active Source broadcast (a console creates/replaces `pending` with
`deadline = now + PENDING_TIMEOUT_SEC`, others are ignored); otherwise
fall through to the timeout check.  `now` is `time.time()` during this
iteration. -/
def procLine (cfg : Cfg) (wk : Bool) (s : St) (now : ℚ) (line : String) :
    St × List String × Bool :=
  match parse_frame line with
  | none => (s, [], true)
  | some f =>
    if isDenonOn cfg f then
      ({ s with pending := none }, [], true)
    else if isActiveSrc f then
      if f.src ∈ cfg.consoleLAs then
        let p : Pending :=
          { la := f.src, phys := physOf f.data, deadline := now + cfg.pendingTimeout }
        ({ s with pending := some p }, [], true)
      else (s, [], true)
    else timeoutCheck cfg wk s now

/-- The watch loop over a finite trace of timed lines.  The loop body runs
once per line read; after a `break` (failed write) the remaining lines are
not processed. -/
def runLines (cfg : Cfg) (wk : Bool) (s : St) :
    List (ℚ × String) → St × List String × Bool
  | [] => (s, [], true)
  | (t, l) :: rest =>
    let r := procLine cfg wk s t l
    if r.2.2 then
      let r2 := runLines cfg wk r.1 rest
      (r2.1, r.2.1 ++ r2.2.1, r2.2.2)
    else (r.1, r.2.1, false)

/-- A line that the loop classifies as an Active Source announcement from a
configured console (the only input that can create a pending entry). -/
def isConsoleAnnounceLine (cfg : Cfg) (l : String) : Bool :=
  match parse_frame l with
  | none => false
  | some f => isActiveSrc f && decide (f.src ∈ cfg.consoleLAs)

/-- A minimal line of the frame grammar carrying header byte `h` (two hex
digits) and opcode `0x82`, used to sweep the full header space. -/
def headerLine (h : Nat) : String := ">> " ++ hex02 h ++ ":82"

/-! ### Step-shape lemmas: one per branch of the loop body -/

theorem timeoutCheck_no_pending (cfg : Cfg) (wk : Bool) (s : St) (now : ℚ)
    (h : s.pending = none) : timeoutCheck cfg wk s now = (s, [], true) := by
  simp only [timeoutCheck, h]

theorem timeoutCheck_not_due (cfg : Cfg) (wk : Bool) (s : St) (now : ℚ) (p : Pending)
    (h : s.pending = some p) (hlt : ¬ p.deadline ≤ now) :
    timeoutCheck cfg wk s now = (s, [], true) := by
  simp only [timeoutCheck, h]
  rw [if_neg hlt]

theorem timeoutCheck_rate_limited (cfg : Cfg) (wk : Bool) (s : St) (now : ℚ) (p : Pending)
    (h : s.pending = some p) (hdue : p.deadline ≤ now)
    (hrl : now - s.lastInjectionTime < cfg.minInjectionInterval) :
    timeoutCheck cfg wk s now = ({ s with pending := none }, [], true) := by
  simp only [timeoutCheck, h]
  rw [if_pos hdue, if_pos hrl]

theorem timeoutCheck_dry_run (cfg : Cfg) (wk : Bool) (s : St) (now : ℚ) (p : Pending)
    (h : s.pending = some p) (hdue : p.deadline ≤ now)
    (hok : ¬ now - s.lastInjectionTime < cfg.minInjectionInterval)
    (hdry : cfg.dryRun = true) :
    timeoutCheck cfg wk s now = ({ s with pending := none }, [], true) := by
  simp only [timeoutCheck, h, hdry]
  rw [if_pos hdue, if_neg hok]
  simp

theorem timeoutCheck_inject (cfg : Cfg) (s : St) (now : ℚ) (p : Pending)
    (h : s.pending = some p) (hdue : p.deadline ≤ now)
    (hok : ¬ now - s.lastInjectionTime < cfg.minInjectionInterval)
    (hdry : cfg.dryRun = false) :
    timeoutCheck cfg true s now =
      ({ pending := none, lastInjectionTime := now }, [injectCmd], true) := by
  simp only [timeoutCheck, h, hdry]
  rw [if_pos hdue, if_neg hok]
  simp

theorem timeoutCheck_broken_pipe (cfg : Cfg) (s : St) (now : ℚ) (p : Pending)
    (h : s.pending = some p) (hdue : p.deadline ≤ now)
    (hok : ¬ now - s.lastInjectionTime < cfg.minInjectionInterval)
    (hdry : cfg.dryRun = false) :
    timeoutCheck cfg false s now = (s, [], false) := by
  simp only [timeoutCheck, h, hdry]
  rw [if_pos hdue, if_neg hok]
  simp

theorem procLine_no_frame (cfg : Cfg) (wk : Bool) (s : St) (now : ℚ) (line : String)
    (h : parse_frame line = none) : procLine cfg wk s now line = (s, [], true) := by
  simp only [procLine, h]

theorem procLine_denon_on (cfg : Cfg) (wk : Bool) (s : St) (now : ℚ) (line : String)
    (f : Frame) (h : parse_frame line = some f) (hd : isDenonOn cfg f = true) :
    procLine cfg wk s now line = ({ s with pending := none }, [], true) := by
  simp only [procLine, h, hd]
  simp

/-- An Active Source frame (opcode `0x82`) can never satisfy the Denon
condition (opcode `0x72`), so the first branch is skipped for it. -/
theorem isDenonOn_eq_false_of_isActiveSrc (cfg : Cfg) (f : Frame)
    (h : isActiveSrc f = true) : isDenonOn cfg f = false := by
  have hop : f.opcode = 0x82 := by
    simp only [isActiveSrc, Bool.and_eq_true, beq_iff_eq] at h
    exact h.1.2
  simp only [isDenonOn, hop]
  simp

theorem procLine_console_announce (cfg : Cfg) (wk : Bool) (s : St) (now : ℚ)
    (line : String) (f : Frame) (h : parse_frame line = some f)
    (ha : isActiveSrc f = true) (hc : f.src ∈ cfg.consoleLAs) :
    procLine cfg wk s now line =
      ({ s with pending := some ⟨f.src, physOf f.data, now + cfg.pendingTimeout⟩ },
        [], true) := by
  simp only [procLine, h, ha, isDenonOn_eq_false_of_isActiveSrc cfg f ha]
  simp [hc]

theorem procLine_other_announce (cfg : Cfg) (wk : Bool) (s : St) (now : ℚ)
    (line : String) (f : Frame) (h : parse_frame line = some f)
    (ha : isActiveSrc f = true) (hc : f.src ∉ cfg.consoleLAs) :
    procLine cfg wk s now line = (s, [], true) := by
  simp only [procLine, h, ha, isDenonOn_eq_false_of_isActiveSrc cfg f ha]
  simp [hc]

theorem procLine_fallthrough (cfg : Cfg) (wk : Bool) (s : St) (now : ℚ)
    (line : String) (f : Frame) (h : parse_frame line = some f)
    (h1 : isDenonOn cfg f = false) (h2 : isActiveSrc f = false) :
    procLine cfg wk s now line = timeoutCheck cfg wk s now := by
  simp only [procLine, h, h1, h2]
  simp

theorem runLines_nil (cfg : Cfg) (wk : Bool) (s : St) :
    runLines cfg wk s [] = (s, [], true) := rfl

theorem runLines_cons_cont (cfg : Cfg) (wk : Bool) (s s' : St) (t : ℚ) (l : String)
    (cs : List String) (rest : List (ℚ × String))
    (h : procLine cfg wk s t l = (s', cs, true)) :
    runLines cfg wk s ((t, l) :: rest) =
      ((runLines cfg wk s' rest).1, cs ++ (runLines cfg wk s' rest).2.1,
        (runLines cfg wk s' rest).2.2) := by
  simp only [runLines, h]
  simp

theorem runLines_cons_break (cfg : Cfg) (wk : Bool) (s s' : St) (t : ℚ) (l : String)
    (cs : List String) (rest : List (ℚ × String))
    (h : procLine cfg wk s t l = (s', cs, false)) :
    runLines cfg wk s ((t, l) :: rest) = (s', cs, false) := by
  simp only [runLines, h]
  simp


/-- Exhaustive case analysis of one loop iteration: either the step writes
nothing, keeps `last_injection_time`, and its new pending entry is none,
unchanged, or freshly created by a console announcement; or the step is a
due, rate-limit-satisfying, non-dry-run timeout, which injects on a good
transport and breaks the loop on a broken one. -/
theorem procLine_step_cases (cfg : Cfg) (wk : Bool) (s : St) (now : ℚ) (l : String) :
    (∃ s', procLine cfg wk s now l = (s', [], true) ∧
      s'.lastInjectionTime = s.lastInjectionTime ∧
      (s'.pending = none ∨ s'.pending = s.pending ∨
        (isConsoleAnnounceLine cfg l = true ∧
          ∃ f, parse_frame l = some f ∧
            s'.pending = some ⟨f.src, physOf f.data, now + cfg.pendingTimeout⟩))) ∨
    (∃ p, s.pending = some p ∧ p.deadline ≤ now ∧
      ¬ now - s.lastInjectionTime < cfg.minInjectionInterval ∧ cfg.dryRun = false ∧
      ((wk = true ∧ procLine cfg wk s now l =
          ({ pending := none, lastInjectionTime := now }, [injectCmd], true)) ∨
       (wk = false ∧ procLine cfg wk s now l = (s, [], false)))) := by
  cases hp : parse_frame l with
  | none =>
    exact Or.inl ⟨s, procLine_no_frame cfg wk s now l hp, rfl, Or.inr (Or.inl rfl)⟩
  | some f =>
    cases hd : isDenonOn cfg f with
    | true =>
      exact Or.inl ⟨_, procLine_denon_on cfg wk s now l f hp hd, rfl, Or.inl rfl⟩
    | false =>
      cases ha : isActiveSrc f with
      | true =>
        by_cases hc : f.src ∈ cfg.consoleLAs
        · refine Or.inl ⟨_, procLine_console_announce cfg wk s now l f hp ha hc,
            rfl, Or.inr (Or.inr ⟨?_, f, rfl, rfl⟩)⟩
          simp [isConsoleAnnounceLine, hp, ha, hc]
        · exact Or.inl ⟨s, procLine_other_announce cfg wk s now l f hp ha hc,
            rfl, Or.inr (Or.inl rfl)⟩
      | false =>
        rw [procLine_fallthrough cfg wk s now l f hp hd ha]
        cases hpend : s.pending with
        | none =>
          exact Or.inl ⟨s, timeoutCheck_no_pending cfg wk s now hpend, rfl,
            Or.inl hpend⟩
        | some p =>
          by_cases hdue : p.deadline ≤ now
          · by_cases hrl : now - s.lastInjectionTime < cfg.minInjectionInterval
            · exact Or.inl ⟨_,
                timeoutCheck_rate_limited cfg wk s now p hpend hdue hrl, rfl,
                Or.inl rfl⟩
            · cases hdry : cfg.dryRun with
              | true =>
                exact Or.inl ⟨_,
                  timeoutCheck_dry_run cfg wk s now p hpend hdue hrl hdry, rfl,
                  Or.inl rfl⟩
              | false =>
                refine Or.inr ⟨p, rfl, hdue, hrl, rfl, ?_⟩
                cases wk with
                | true =>
                  exact Or.inl ⟨rfl,
                    timeoutCheck_inject cfg s now p hpend hdue hrl hdry⟩
                | false =>
                  exact Or.inr ⟨rfl,
                    timeoutCheck_broken_pipe cfg s now p hpend hdue hrl hdry⟩
          · exact Or.inl ⟨s, timeoutCheck_not_due cfg wk s now p hpend hdue, rfl,
              Or.inr (Or.inl hpend)⟩

/-- Splitting a run at a point where the loop has not broken. -/
theorem runLines_append (cfg : Cfg) (wk : Bool) (tr1 : List (ℚ × String)) :
    ∀ (s : St) (tr2 : List (ℚ × String)), (runLines cfg wk s tr1).2.2 = true →
      runLines cfg wk s (tr1 ++ tr2) =
        ((runLines cfg wk (runLines cfg wk s tr1).1 tr2).1,
          (runLines cfg wk s tr1).2.1 ++
            (runLines cfg wk (runLines cfg wk s tr1).1 tr2).2.1,
          (runLines cfg wk (runLines cfg wk s tr1).1 tr2).2.2) := by
  induction tr1 with
  | nil => intro s tr2 _; simp [runLines_nil]
  | cons x rest ih =>
    obtain ⟨t, l⟩ := x
    intro s tr2 hflag
    rcases hpe : procLine cfg wk s t l with ⟨s1, cs1, flag⟩
    cases flag with
    | true =>
      rw [List.cons_append, runLines_cons_cont cfg wk s s1 t l cs1 (rest ++ tr2) hpe,
        runLines_cons_cont cfg wk s s1 t l cs1 rest hpe]
      rw [runLines_cons_cont cfg wk s s1 t l cs1 rest hpe] at hflag
      rw [ih s1 tr2 hflag]
      simp
    | false =>
      rw [runLines_cons_break cfg wk s s1 t l cs1 rest hpe] at hflag
      simp at hflag

/-- While every processed time is within the rate-limit window of
`last_injection_time`, the loop writes nothing and never changes
`last_injection_time` (each due timeout is skipped as rate-limited). -/
theorem runLines_quiet (cfg : Cfg) (wk : Bool) (tr : List (ℚ × String)) :
    ∀ s : St,
      (∀ x ∈ tr, (x : ℚ × String).1 - s.lastInjectionTime < cfg.minInjectionInterval) →
      (runLines cfg wk s tr).1.lastInjectionTime = s.lastInjectionTime ∧
        (runLines cfg wk s tr).2.1 = [] ∧ (runLines cfg wk s tr).2.2 = true := by
  induction tr with
  | nil => intro s _; simp [runLines_nil]
  | cons x rest ih =>
    obtain ⟨t, l⟩ := x
    intro s h
    rcases procLine_step_cases cfg wk s t l with
      ⟨s', hpe, hlast, _⟩ | ⟨p, _, _, hrl, _, _⟩
    · rw [runLines_cons_cont cfg wk s s' t l [] rest hpe]
      have hrest : ∀ x ∈ rest,
          (x : ℚ × String).1 - s'.lastInjectionTime < cfg.minInjectionInterval := by
        intro x hx
        rw [hlast]
        exact h x (List.mem_cons_of_mem _ hx)
      obtain ⟨h1, h2, h3⟩ := ih s' hrest
      refine ⟨by rw [h1, hlast], by simp [h2], h3⟩
    · exact absurd (h (t, l) (List.mem_cons_self _ _)) (by simpa using hrl)

/-- While every processed time lies strictly before `b` and within
`pendingTimeout` of `b`, the loop writes nothing, keeps
`last_injection_time`, does not break, and every live pending entry keeps a
deadline at or after `b`. -/
theorem runLines_guarded (cfg : Cfg) (wk : Bool) (b : ℚ) (tr : List (ℚ × String)) :
    ∀ s : St, (∀ p, s.pending = some p → b ≤ p.deadline) →
      (∀ x ∈ tr, (x : ℚ × String).1 < b ∧ b ≤ x.1 + cfg.pendingTimeout) →
      (runLines cfg wk s tr).1.lastInjectionTime = s.lastInjectionTime ∧
        (runLines cfg wk s tr).2.1 = [] ∧ (runLines cfg wk s tr).2.2 = true ∧
        (∀ p, (runLines cfg wk s tr).1.pending = some p → b ≤ p.deadline) := by
  induction tr with
  | nil => intro s hinv _; simpa [runLines_nil] using hinv
  | cons x rest ih =>
    obtain ⟨t, l⟩ := x
    intro s hinv h
    rcases procLine_step_cases cfg wk s t l with
      ⟨s', hpe, hlast, hpend⟩ | ⟨p, hp, hdue, _, _, _⟩
    · rw [runLines_cons_cont cfg wk s s' t l [] rest hpe]
      have hinv' : ∀ p, s'.pending = some p → b ≤ p.deadline := by
        rcases hpend with h0 | h0 | ⟨_, f, _, h0⟩
        · intro p hp; rw [h0] at hp; cases hp
        · intro p hp; rw [h0] at hp; exact hinv p hp
        · intro p hp
          rw [h0] at hp
          cases hp
          exact (h (t, l) (List.mem_cons_self _ _)).2
      obtain ⟨h1, h2, h3, h4⟩ := ih s' hinv' (fun x hx => h x (List.mem_cons_of_mem _ hx))
      exact ⟨by rw [h1, hlast], by simp [h2], h3, h4⟩
    · have hb := hinv p hp
      have ht := (h (t, l) (List.mem_cons_self _ _)).1
      exact absurd hdue (not_le.mpr (by linarith))

/-- From an empty pending slot, a trace with no console announcements never
writes, never breaks, and ends with the pending slot still empty. -/
theorem runLines_no_console_none (cfg : Cfg) (wk : Bool) (tr : List (ℚ × String)) :
    ∀ s : St, s.pending = none →
      (∀ x ∈ tr, isConsoleAnnounceLine cfg (x : ℚ × String).2 = false) →
      (runLines cfg wk s tr).2.1 = [] ∧ (runLines cfg wk s tr).1.pending = none ∧
        (runLines cfg wk s tr).2.2 = true := by
  induction tr with
  | nil => intro s hnone _; simp [runLines_nil, hnone]
  | cons x rest ih =>
    obtain ⟨t, l⟩ := x
    intro s hnone h
    rcases procLine_step_cases cfg wk s t l with
      ⟨s', hpe, _, hpend⟩ | ⟨p, hp, _, _, _, _⟩
    · rw [runLines_cons_cont cfg wk s s' t l [] rest hpe]
      have hnone' : s'.pending = none := by
        rcases hpend with h0 | h0 | ⟨hcl, _⟩
        · exact h0
        · rw [h0, hnone]
        · exact absurd hcl (by simp [h (t, l) (List.mem_cons_self _ _)])
      obtain ⟨h1, h2, h3⟩ := ih s' hnone' (fun x hx => h x (List.mem_cons_of_mem _ hx))
      exact ⟨by simp [h1], h2, h3⟩
    · rw [hnone] at hp; cases hp

/-- A trace with no console announcements can produce at most one injection:
an injection clears the pending slot, and without a new announcement the
slot can never be refilled. -/
theorem runLines_no_console_le_one (cfg : Cfg) (tr : List (ℚ × String)) :
    ∀ (wk : Bool) (s : St),
      (∀ x ∈ tr, isConsoleAnnounceLine cfg (x : ℚ × String).2 = false) →
      (runLines cfg wk s tr).2.1.length ≤ 1 := by
  induction tr with
  | nil => intro wk s _; simp [runLines_nil]
  | cons x rest ih =>
    obtain ⟨t, l⟩ := x
    intro wk s h
    rcases procLine_step_cases cfg wk s t l with
      ⟨s', hpe, _, _⟩ | ⟨p, _, _, _, _, ⟨hwk, hpe⟩ | ⟨hwk, hpe⟩⟩
    · rw [runLines_cons_cont cfg wk s s' t l [] rest hpe]
      simpa using ih wk s' (fun x hx => h x (List.mem_cons_of_mem _ hx))
    · rw [hwk] at hpe ⊢
      rw [runLines_cons_cont cfg true s _ t l [injectCmd] rest hpe]
      have hrest := runLines_no_console_none cfg true rest
        { pending := none, lastInjectionTime := t } rfl
        (fun x hx => h x (List.mem_cons_of_mem _ hx))
      simp [hrest.1]
    · rw [hwk] at hpe ⊢
      rw [runLines_cons_break cfg false s s t l [] rest hpe]
      simp

/-- The value of a character accepted by the hex character class is below 16. -/
theorem hexVal_lt_16 (c : Char) (h : isHexChar c = true) : hexVal c < 16 := by
  simp only [isHexChar, Bool.or_eq_true, Bool.and_eq_true, decide_eq_true_eq] at h
  unfold hexVal
  generalize c.toNat = n at h ⊢
  rcases h with ⟨h1, h2⟩ | ⟨h1, h2⟩ | ⟨h1, h2⟩ <;> split_ifs <;> omega

/-- The header digits captured by `matchBody` come from the hex class. -/
theorem matchBody_hex (cs : List Char) (r : RawMatch) (h : matchBody cs = some r) :
    isHexChar r.h1 = true ∧ isHexChar r.h2 = true := by
  unfold matchBody at h
  split at h
  case _ h1 h2 o1 o2 rest =>
    split_ifs at h with hhex
    · simp only [Bool.and_eq_true] at hhex
      split at h
      · split_ifs at h <;>
          { cases h; exact ⟨hhex.1.1.1, hhex.1.1.2⟩ }
      · cases h; exact ⟨hhex.1.1.1, hhex.1.1.2⟩
  case _ => cases h

/-- The header digits captured at any anchored attempt are hex digits. -/
theorem matchFrameAt_hex (cs : List Char) (r : RawMatch)
    (h : matchFrameAt cs = some r) :
    isHexChar r.h1 = true ∧ isHexChar r.h2 = true := by
  unfold matchFrameAt at h
  split at h
  case _ c rest =>
    split_ifs at h
    exact matchBody_hex _ _ h
  case _ => cases h

/-- The header digits captured by the search are hex digits. -/
theorem searchFrame_hex (cs : List Char) (r : RawMatch)
    (h : searchFrame cs = some r) :
    isHexChar r.h1 = true ∧ isHexChar r.h2 = true := by
  induction cs with
  | nil => cases h
  | cons c rest ih =>
    unfold searchFrame at h
    split at h
    case _ r' hm => cases h; exact matchFrameAt_hex _ _ hm
    case _ => exact ih h

/-! ### Claim C4 -/

/-- C4 is refuted on the payload bound: the data group of `FRAME_RE` accepts
colon-separated hex runs of any positive length, so the line `>> 4f:82:123`
parses to a frame whose single payload byte is `0x123 = 291 > 255`, and its
payload byte is encoded by three hex digits, not two. -/
theorem c4_payload_counterexample :
    parse_frame ">> 4f:82:123" = some ⟨4, 15, 0x82, [291]⟩ ∧ ¬ 291 ≤ 255 :=
  ⟨by decide, by decide⟩

/-- C4 (amended): every `Frame` returned by `parse_frame` has
`sourceAddress` and `destAddress` in `[0, 15]`; payload bytes are the values
of colon-separated case-insensitive hex-digit runs of one or more digits,
so they are only guaranteed to be in `[0, 255]` when their run has at most
two digits (which the grammar does not enforce). -/
theorem c4_address_ranges (line : String) (f : Frame)
    (h : parse_frame line = some f) : f.src ≤ 15 ∧ f.dst ≤ 15 := by
  unfold parse_frame at h
  cases hs : searchFrame line.data with
  | none => rw [hs] at h; cases h
  | some r =>
    rw [hs] at h
    cases h
    obtain ⟨hh1, hh2⟩ := searchFrame_hex _ _ hs
    have v1 := hexVal_lt_16 _ hh1
    have v2 := hexVal_lt_16 _ hh2
    constructor
    · show (hexVal r.h1 * 16 + hexVal r.h2) >>> 4 ≤ 15
      rw [Nat.shiftRight_eq_div_pow]
      have h16 : (2 : Nat) ^ 4 = 16 := by norm_num
      rw [h16]
      omega
    · show (hexVal r.h1 * 16 + hexVal r.h2) &&& 0xF ≤ 15
      exact Nat.and_le_right

/-- Witness for `c4_address_ranges` at the sample TRAFFIC line of the
source docstring. -/
theorem c4_address_ranges_witness :
    parse_frame ">> bf:82:36:00" = some ⟨11, 15, 0x82, [54, 0]⟩ ∧
      (11 : Nat) ≤ 15 ∧ (15 : Nat) ≤ 15 :=
  ⟨by decide, c4_address_ranges ">> bf:82:36:00" ⟨11, 15, 0x82, [54, 0]⟩ (by decide)⟩

/-! ### Claim C7 -/

/-- C7: an Active Source broadcast (`destAddress = 15`, opcode `0x82`, at
least two payload bytes) from a source outside the console set leaves the
whole state unchanged — in particular the pending slot — and writes
nothing in that step. -/
theorem c7_nonconsole_announce_noop (cfg : Cfg) (wk : Bool) (s : St) (now : ℚ)
    (line : String) (f : Frame) (h : parse_frame line = some f)
    (hdst : f.dst = 15) (hop : f.opcode = 0x82) (hlen : 2 ≤ f.data.length)
    (hc : f.src ∉ cfg.consoleLAs) :
    procLine cfg wk s now line = (s, [], true) := by
  apply procLine_other_announce cfg wk s now line f h ?_ hc
  simp [isActiveSrc, hdst, hop, hlen]

/-- Witness for `c7_nonconsole_announce_noop`: the TV (logical 0) announcing
itself as active source is ignored. -/
theorem c7_nonconsole_announce_noop_witness :
    parse_frame ">> 0f:82:10:00" = some ⟨0, 15, 0x82, [16, 0]⟩ ∧
      (0 : Nat) ∉ cfg0.consoleLAs ∧
      procLine cfg0 true initSt 1 ">> 0f:82:10:00" = (initSt, [], true) :=
  ⟨by decide, by decide,
    c7_nonconsole_announce_noop cfg0 true initSt 1 ">> 0f:82:10:00"
      ⟨0, 15, 0x82, [16, 0]⟩ (by decide) rfl rfl (by decide) (by decide)⟩

/-! ### Claim C8 -/


set_option maxRecDepth 100000 in
/-- C8: for every header byte value `h` in `0..255`, the accepted line
carrying it parses to `sourceAddress = h >>> 4` and
`destAddress = h &&& 0xF`. -/
theorem c8_header_nibbles :
    ∀ h : Nat, h < 256 →
      parse_frame (headerLine h) = some ⟨h >>> 4, h &&& 0xF, 0x82, []⟩ := by decide

/-- Witness for `c8_header_nibbles` at header `0xBF`. -/
theorem c8_header_nibbles_witness :
    (191 : Nat) < 256 ∧
      parse_frame (headerLine 191) = some ⟨11, 15, 0x82, []⟩ :=
  ⟨by decide, c8_header_nibbles 191 (by decide)⟩

/-! ### Claim C1 -/

/-- C1 fails on the code: the timeout check sits inside `for line in
proc.stdout`, so time only advances when a line arrives.  After the console
announcement at `t = 0` (deadline `0.5`) a quiet bus leaves the pending
confirmation live forever with nothing written; the deadline is acted on
only when some later frame arrives — here at `t = 10`, when the injection
finally happens (at 10, not at 0.5). -/
theorem c1_quiet_bus_deadline_never_fires :
    runLines cfg0 true initSt [((0 : ℚ), ">> 4f:82:10:00")] =
      ({ pending := some ⟨4, "10:00", 1/2⟩, lastInjectionTime := 0 }, [], true) ∧
    runLines cfg0 true initSt [((0 : ℚ), ">> 4f:82:10:00"), ((10 : ℚ), ">> 01:04")] =
      ({ pending := none, lastInjectionTime := 10 }, ["tx 15:70:00:00"], true) := by
  have hp1 : parse_frame ">> 4f:82:10:00" = some ⟨4, 15, 0x82, [16, 0]⟩ := by decide
  have h1 := procLine_console_announce cfg0 true initSt 0 ">> 4f:82:10:00"
    ⟨4, 15, 0x82, [16, 0]⟩ hp1 (by decide) (by decide)
  have h1' : procLine cfg0 true initSt 0 ">> 4f:82:10:00" =
      ({ pending := some ⟨4, "10:00", 1/2⟩, lastInjectionTime := 0 }, [], true) := by
    rw [h1]
    have hph : physOf ((⟨4, 15, 0x82, [16, 0]⟩ : Frame).data) = "10:00" := by decide
    have hq : (0 : ℚ) + cfg0.pendingTimeout = 1/2 := by norm_num [cfg0]
    simp [initSt, hph, hq]
  constructor
  · rw [runLines_cons_cont cfg0 true initSt _ 0 _ [] [] h1', runLines_nil]
    simp
  · rw [runLines_cons_cont cfg0 true initSt _ 0 _ [] _ h1']
    have h2 := procLine_fallthrough cfg0 true
      { pending := some ⟨4, "10:00", 1/2⟩, lastInjectionTime := 0 } 10 ">> 01:04"
      ⟨0, 1, 4, []⟩ (by decide) (by decide) (by decide)
    rw [timeoutCheck_inject cfg0 _ 10 ⟨4, "10:00", 1/2⟩ rfl (by norm_num)
      (by norm_num [cfg0]) rfl] at h2
    rw [runLines_cons_cont cfg0 true _ _ 10 _ [injectCmd] [] h2, runLines_nil]
    simp [injectCmd]

/-! ### Claim C2 -/

/-- C2 is refuted at the stated time origin: `last_injection_time` starts
as the clock value `0.0`, not as a distinguished "never", so at `t = 0.5`
the rate check sees `0.5 - 0.0 < 3.0` and the due timeout is skipped as
rate-limited — nothing is written and `lastInjectionTime` stays `0`. -/
theorem c2_time_origin_counterexample :
    runLines cfg0 true initSt
        [((0 : ℚ), ">> 4f:82:10:00"), ((1/2 : ℚ), ">> 01:04")] =
      ({ pending := none, lastInjectionTime := 0 }, [], true) := by
  have hp1 : parse_frame ">> 4f:82:10:00" = some ⟨4, 15, 0x82, [16, 0]⟩ := by decide
  have h1 := procLine_console_announce cfg0 true initSt 0 ">> 4f:82:10:00"
    ⟨4, 15, 0x82, [16, 0]⟩ hp1 (by decide) (by decide)
  have h1' : procLine cfg0 true initSt 0 ">> 4f:82:10:00" =
      ({ pending := some ⟨4, "10:00", 1/2⟩, lastInjectionTime := 0 }, [], true) := by
    rw [h1]
    have hph : physOf ((⟨4, 15, 0x82, [16, 0]⟩ : Frame).data) = "10:00" := by decide
    have hq : (0 : ℚ) + cfg0.pendingTimeout = 1/2 := by norm_num [cfg0]
    simp [initSt, hph, hq]
  rw [runLines_cons_cont cfg0 true initSt _ 0 _ [] _ h1']
  have h2 := procLine_fallthrough cfg0 true
    { pending := some ⟨4, "10:00", 1/2⟩, lastInjectionTime := 0 } (1/2) ">> 01:04"
    ⟨0, 1, 4, []⟩ (by decide) (by decide) (by decide)
  rw [timeoutCheck_rate_limited cfg0 true _ (1/2) ⟨4, "10:00", 1/2⟩ rfl (by norm_num)
    (by norm_num [cfg0])] at h2
  rw [runLines_cons_cont cfg0 true _ _ (1/2) _ [] [] h2, runLines_nil]
  simp

/-- C2 (amended): the same scenario holds whenever the clock origin is at
least `2.5` (as with a real epoch clock, where `time.time()` is huge and
`last_injection_time = 0.0` means "long ago"), and a trace line must arrive
at `T + 0.5` for the timeout to be processed: the engine then writes
exactly `tx 15:70:00:00` at `T + 0.5`, sets `lastInjectionTime` to
`T + 0.5` and clears the pending confirmation. -/
theorem c2_scenario_a_amended (T : ℚ) (hT : 5/2 ≤ T) :
    runLines cfg0 true initSt
        [(T, ">> 4f:82:10:00"), (T + 1/2, ">> 01:04")] =
      ({ pending := none, lastInjectionTime := T + 1/2 },
        ["tx 15:70:00:00"], true) := by
  have hp1 : parse_frame ">> 4f:82:10:00" = some ⟨4, 15, 0x82, [16, 0]⟩ := by decide
  have h1 := procLine_console_announce cfg0 true initSt T ">> 4f:82:10:00"
    ⟨4, 15, 0x82, [16, 0]⟩ hp1 (by decide) (by decide)
  have h1' : procLine cfg0 true initSt T ">> 4f:82:10:00" =
      ({ pending := some ⟨4, "10:00", T + 1/2⟩, lastInjectionTime := 0 }, [], true) := by
    rw [h1]
    have hph : physOf ((⟨4, 15, 0x82, [16, 0]⟩ : Frame).data) = "10:00" := by decide
    have hq : T + cfg0.pendingTimeout = T + 1/2 := by norm_num [cfg0]
    simp [initSt, hph, hq]
  rw [runLines_cons_cont cfg0 true initSt _ T _ [] _ h1']
  have h2 := procLine_fallthrough cfg0 true
    { pending := some ⟨4, "10:00", T + 1/2⟩, lastInjectionTime := 0 } (T + 1/2)
    ">> 01:04" ⟨0, 1, 4, []⟩ (by decide) (by decide) (by decide)
  rw [timeoutCheck_inject cfg0 _ (T + 1/2) ⟨4, "10:00", T + 1/2⟩ rfl (le_refl _)
    (by show ¬ T + 1/2 - (0 : ℚ) < (3 : ℚ); intro hcon; linarith) rfl] at h2
  rw [runLines_cons_cont cfg0 true _ _ (T + 1/2) _ [injectCmd] [] h2, runLines_nil]
  simp [injectCmd]

/-- Witness for `c2_scenario_a_amended` at origin `T = 3`. -/
theorem c2_scenario_a_amended_witness :
    (5/2 : ℚ) ≤ 3 ∧
      runLines cfg0 true initSt
          [((3 : ℚ), ">> 4f:82:10:00"), ((3 : ℚ) + 1/2, ">> 01:04")] =
        ({ pending := none, lastInjectionTime := (3 : ℚ) + 1/2 },
          ["tx 15:70:00:00"], true) :=
  ⟨by norm_num, c2_scenario_a_amended 3 (by norm_num)⟩

/-! ### Claim C3 -/

/-- C3: with the last injection at `t0`, any due timeout step at `t1` with
`t1 - t0 < minInjectionInterval` clears the pending confirmation without
writing, and an arbitrary further trace whose step times all stay within
the window of `t0` writes nothing at all — however many pending
confirmations expire in between. -/
theorem c3_rate_limited_timeouts (cfg : Cfg) (wk : Bool) (s : St) (t0 t1 : ℚ)
    (p : Pending) (tr : List (ℚ × String))
    (hlast : s.lastInjectionTime = t0) (hp : s.pending = some p)
    (hdue : p.deadline ≤ t1) (hlt : t1 - t0 < cfg.minInjectionInterval)
    (htr : ∀ x ∈ tr, (x : ℚ × String).1 - t0 < cfg.minInjectionInterval) :
    timeoutCheck cfg wk s t1 = ({ s with pending := none }, [], true) ∧
      (runLines cfg wk s tr).2.1 = [] := by
  constructor
  · exact timeoutCheck_rate_limited cfg wk s t1 p hp hdue (by rw [hlast]; exact hlt)
  · exact (runLines_quiet cfg wk tr s
      (fun x hx => by rw [hlast]; exact htr x hx)).2.1

/-- Witness for `c3_rate_limited_timeouts`: injection happened at `0.5`, a
pending deadline of `1` expires, and the timeout is processed at `2`. -/
theorem c3_rate_limited_timeouts_witness :
    timeoutCheck cfg0 true
        { pending := some ⟨4, "10:00", 1⟩, lastInjectionTime := 1/2 } 2 =
      ({ pending := none, lastInjectionTime := 1/2 }, [], true) ∧
      (runLines cfg0 true { pending := some ⟨4, "10:00", 1⟩, lastInjectionTime := 1/2 }
        [((2 : ℚ), ">> 01:04")]).2.1 = [] :=
  c3_rate_limited_timeouts cfg0 true
    { pending := some ⟨4, "10:00", 1⟩, lastInjectionTime := 1/2 } (1/2) 2
    ⟨4, "10:00", 1⟩ [((2 : ℚ), ">> 01:04")] rfl rfl (by norm_num)
    (by norm_num [cfg0])
    (by
      intro x hx
      simp only [List.mem_singleton] at hx
      subst hx
      norm_num [cfg0])

/-! ### Claim C5 -/

/-- C5: a pending confirmation with deadline `t0 + pendingTimeout`, a trace
of lines processed at times in `[t0, t0 + pendingTimeout)`, and finally a
`SystemAudioModeOn` broadcast at `t1 < t0 + pendingTimeout`: the engine
ends Idle (pending cleared), writes nothing during the whole interval, does
not break, and the rate-limit clock is untouched. -/
theorem c5_natural_confirmation (cfg : Cfg) (wk : Bool) (s : St) (pd : Pending)
    (t0 t1 : ℚ) (tr : List (ℚ × String)) (lDen : String) (fDen : Frame)
    (hp : s.pending = some pd) (hdl : pd.deadline = t0 + cfg.pendingTimeout)
    (htr : ∀ x ∈ tr, t0 ≤ (x : ℚ × String).1 ∧ x.1 < t0 + cfg.pendingTimeout)
    (ht0 : t0 ≤ t1) (ht1 : t1 < t0 + cfg.pendingTimeout)
    (hl : parse_frame lDen = some fDen) (hden : isDenonOn cfg fDen = true) :
    (runLines cfg wk s (tr ++ [(t1, lDen)])).1.pending = none ∧
      (runLines cfg wk s (tr ++ [(t1, lDen)])).2.1 = [] ∧
      (runLines cfg wk s (tr ++ [(t1, lDen)])).2.2 = true ∧
      (runLines cfg wk s (tr ++ [(t1, lDen)])).1.lastInjectionTime =
        s.lastInjectionTime := by
  have hinv : ∀ p, s.pending = some p → t0 + cfg.pendingTimeout ≤ p.deadline := by
    intro p hpp
    rw [hp] at hpp
    cases hpp
    rw [hdl]
  have htr' : ∀ x ∈ tr, (x : ℚ × String).1 < t0 + cfg.pendingTimeout ∧
      t0 + cfg.pendingTimeout ≤ x.1 + cfg.pendingTimeout := by
    intro x hx
    obtain ⟨ha, hb⟩ := htr x hx
    exact ⟨hb, by linarith⟩
  obtain ⟨g1, g2, g3, _⟩ :=
    runLines_guarded cfg wk (t0 + cfg.pendingTimeout) tr s hinv htr'
  rw [runLines_append cfg wk tr s [(t1, lDen)] g3]
  have hstep := procLine_denon_on cfg wk (runLines cfg wk s tr).1 t1 lDen fDen hl hden
  rw [runLines_cons_cont cfg wk _ _ t1 lDen [] [] hstep, runLines_nil]
  exact ⟨rfl, by simp [g2], rfl, by rw [show ({ (runLines cfg wk s tr).1 with
    pending := none } : St).lastInjectionTime =
      (runLines cfg wk s tr).1.lastInjectionTime from rfl, g1]⟩

/-- Witness for `c5_natural_confirmation`: pending from `t0 = 0`, Denon
confirms at `t1 = 0.2`, no other traffic. -/
theorem c5_natural_confirmation_witness :
    (runLines cfg0 true { pending := some ⟨4, "10:00", 1/2⟩, lastInjectionTime := 0 }
        ([] ++ [((1/5 : ℚ), ">> 5f:72:01")])).1.pending = none ∧
      (runLines cfg0 true { pending := some ⟨4, "10:00", 1/2⟩, lastInjectionTime := 0 }
        ([] ++ [((1/5 : ℚ), ">> 5f:72:01")])).2.1 = [] ∧
      (runLines cfg0 true { pending := some ⟨4, "10:00", 1/2⟩, lastInjectionTime := 0 }
        ([] ++ [((1/5 : ℚ), ">> 5f:72:01")])).2.2 = true ∧
      (runLines cfg0 true { pending := some ⟨4, "10:00", 1/2⟩, lastInjectionTime := 0 }
        ([] ++ [((1/5 : ℚ), ">> 5f:72:01")])).1.lastInjectionTime =
        ({ pending := some ⟨4, "10:00", 1/2⟩, lastInjectionTime := 0 } : St).lastInjectionTime :=
  c5_natural_confirmation cfg0 true
    { pending := some ⟨4, "10:00", 1/2⟩, lastInjectionTime := 0 }
    ⟨4, "10:00", 1/2⟩ 0 (1/5) [] ">> 5f:72:01" ⟨5, 15, 0x72, [1]⟩ rfl
    (by norm_num [cfg0]) (by simp) (by norm_num) (by norm_num [cfg0])
    (by decide) (by decide)

/-! ### Claim C6 -/

/-- C6: two console Active Source announcements processed at `u1` and then
`u2` (before the first deadline fires) write nothing, leave exactly one
pending confirmation — the second announcement's source, physical address
and deadline `u2 + pendingTimeout` — and any continuation containing no
further console announcement produces at most one injection. -/
theorem c6_supersession (cfg : Cfg) (wk : Bool) (s : St) (u1 u2 : ℚ)
    (l1 l2 : String) (f1 f2 : Frame) (tr : List (ℚ × String))
    (h1 : parse_frame l1 = some f1) (ha1 : isActiveSrc f1 = true)
    (hc1 : f1.src ∈ cfg.consoleLAs)
    (h2 : parse_frame l2 = some f2) (ha2 : isActiveSrc f2 = true)
    (hc2 : f2.src ∈ cfg.consoleLAs)
    (hu : u2 < u1 + cfg.pendingTimeout)
    (htr : ∀ x ∈ tr, isConsoleAnnounceLine cfg (x : ℚ × String).2 = false) :
    (procLine cfg wk s u1 l1).2.1 = [] ∧
      (procLine cfg wk (procLine cfg wk s u1 l1).1 u2 l2).2.1 = [] ∧
      (procLine cfg wk (procLine cfg wk s u1 l1).1 u2 l2).1.pending =
        some ⟨f2.src, physOf f2.data, u2 + cfg.pendingTimeout⟩ ∧
      (runLines cfg wk
        (procLine cfg wk (procLine cfg wk s u1 l1).1 u2 l2).1 tr).2.1.length ≤ 1 := by
  rw [procLine_console_announce cfg wk s u1 l1 f1 h1 ha1 hc1]
  rw [procLine_console_announce cfg wk _ u2 l2 f2 h2 ha2 hc2]
  exact ⟨rfl, rfl, rfl, runLines_no_console_le_one cfg tr wk _ htr⟩

/-- Witness for `c6_supersession`: console 4 announces at `0`, console 8
supersedes it at `0.25`, no further traffic. -/
theorem c6_supersession_witness :
    (procLine cfg0 true initSt 0 ">> 4f:82:10:00").2.1 = [] ∧
      (procLine cfg0 true (procLine cfg0 true initSt 0 ">> 4f:82:10:00").1
        (1/4) ">> 8f:82:20:00").2.1 = [] ∧
      (procLine cfg0 true (procLine cfg0 true initSt 0 ">> 4f:82:10:00").1
        (1/4) ">> 8f:82:20:00").1.pending =
        some ⟨(⟨8, 15, 0x82, [32, 0]⟩ : Frame).src,
          physOf ((⟨8, 15, 0x82, [32, 0]⟩ : Frame).data),
          (1/4 : ℚ) + cfg0.pendingTimeout⟩ ∧
      (runLines cfg0 true
        (procLine cfg0 true (procLine cfg0 true initSt 0 ">> 4f:82:10:00").1
          (1/4) ">> 8f:82:20:00").1 []).2.1.length ≤ 1 :=
  c6_supersession cfg0 true initSt 0 (1/4) ">> 4f:82:10:00" ">> 8f:82:20:00"
    ⟨4, 15, 0x82, [16, 0]⟩ ⟨8, 15, 0x82, [32, 0]⟩ [] (by decide) (by decide)
    (by decide) (by decide) (by decide) (by decide) (by norm_num [cfg0]) (by simp)

/-! ### Claim C9 -/

/-- C9: with the dry-run flag set, a qualifying timeout (deadline passed,
rate limit satisfied against `lastInjectionTime`) clears the pending slot,
writes nothing and leaves `lastInjectionTime` unchanged; a second
qualifying timeout therefore still passes the rate check against the
original `lastInjectionTime` even within `minInjectionInterval` of the
first, and no dry-run step whatsoever can change `lastInjectionTime`. -/
theorem c9_dry_run_keeps_clock (cfg : Cfg) (wk : Bool) (s : St) (p p2 : Pending)
    (t1 t2 : ℚ) (hdry : cfg.dryRun = true)
    (hp : s.pending = some p) (hd1 : p.deadline ≤ t1)
    (hr1 : ¬ t1 - s.lastInjectionTime < cfg.minInjectionInterval)
    (hd2 : p2.deadline ≤ t2)
    (hr2 : ¬ t2 - s.lastInjectionTime < cfg.minInjectionInterval)
    (hclose : t2 - t1 < cfg.minInjectionInterval) :
    timeoutCheck cfg wk s t1 = ({ s with pending := none }, [], true) ∧
      ¬ t2 - ({ s with pending := none } : St).lastInjectionTime <
        cfg.minInjectionInterval ∧
      timeoutCheck cfg wk { s with pending := some p2 } t2 =
        ({ s with pending := none }, [], true) ∧
      ∀ (now : ℚ) (l : String),
        (procLine cfg wk s now l).1.lastInjectionTime = s.lastInjectionTime := by
  refine ⟨timeoutCheck_dry_run cfg wk s t1 p hp hd1 hr1 hdry, hr2, ?_, ?_⟩
  · exact timeoutCheck_dry_run cfg wk { s with pending := some p2 } t2 p2 rfl hd2
      hr2 hdry
  · intro now l
    rcases procLine_step_cases cfg wk s now l with
      ⟨s', hpe, hlastq, _⟩ | ⟨_, _, _, _, hdryf, _⟩
    · rw [hpe]
      exact hlastq
    · rw [hdry] at hdryf
      cases hdryf

/-- Witness for `c9_dry_run_keeps_clock`: dry-run engine, timeouts at `3`
and `4`, one unit apart, both qualifying against the initial clock `0`. -/
theorem c9_dry_run_keeps_clock_witness :
    timeoutCheck { cfg0 with dryRun := true } true
        { pending := some ⟨4, "10:00", 1/2⟩, lastInjectionTime := 0 } 3 =
      ({ pending := none, lastInjectionTime := 0 }, [], true) ∧
      ¬ (4 : ℚ) - ({ pending := none, lastInjectionTime := 0 } : St).lastInjectionTime <
        ({ cfg0 with dryRun := true } : Cfg).minInjectionInterval ∧
      timeoutCheck { cfg0 with dryRun := true } true
        { pending := some ⟨8, "20:00", 7/2⟩, lastInjectionTime := 0 } 4 =
      ({ pending := none, lastInjectionTime := 0 }, [], true) ∧
      ∀ (now : ℚ) (l : String),
        (procLine { cfg0 with dryRun := true } true
          { pending := some ⟨4, "10:00", 1/2⟩, lastInjectionTime := 0 } now l).1.lastInjectionTime =
        ({ pending := some ⟨4, "10:00", 1/2⟩, lastInjectionTime := 0 } : St).lastInjectionTime :=
  c9_dry_run_keeps_clock { cfg0 with dryRun := true } true
    { pending := some ⟨4, "10:00", 1/2⟩, lastInjectionTime := 0 }
    ⟨4, "10:00", 1/2⟩ ⟨8, "20:00", 7/2⟩ 3 4 rfl rfl (by norm_num)
    (by norm_num [cfg0]) (by norm_num) (by norm_num [cfg0]) (by norm_num [cfg0])

/-! ### Claim C10 -/

/-- C10: when the injection write raises `BrokenPipeError`, the loop
terminates immediately (remaining lines are not processed) with the state
untouched by that step: `lastInjectionTime` keeps its value and the pending
confirmation is *not* cleared (the `pending = None` line is only reached
after a non-raising write). -/
theorem c10_broken_pipe_terminates (cfg : Cfg) (s : St) (p : Pending) (now : ℚ)
    (l : String) (f : Frame) (rest : List (ℚ × String))
    (hdry : cfg.dryRun = false) (hp : s.pending = some p) (hdue : p.deadline ≤ now)
    (hok : ¬ now - s.lastInjectionTime < cfg.minInjectionInterval)
    (hl : parse_frame l = some f) (hnd : isDenonOn cfg f = false)
    (hna : isActiveSrc f = false) :
    runLines cfg false s ((now, l) :: rest) = (s, [], false) := by
  have hstep : procLine cfg false s now l = (s, [], false) := by
    rw [procLine_fallthrough cfg false s now l f hl hnd hna]
    exact timeoutCheck_broken_pipe cfg s now p hp hdue hok hdry
  exact runLines_cons_break cfg false s s now l [] rest hstep

/-- Witness for `c10_broken_pipe_terminates`: a due timeout at `5` whose
write fails; the later console line is never processed. -/
theorem c10_broken_pipe_terminates_witness :
    runLines cfg0 false { pending := some ⟨4, "10:00", 1/2⟩, lastInjectionTime := 0 }
        [((5 : ℚ), ">> 01:04"), ((6 : ℚ), ">> 4f:82:10:00")] =
      ({ pending := some ⟨4, "10:00", 1/2⟩, lastInjectionTime := 0 }, [], false) :=
  c10_broken_pipe_terminates cfg0
    { pending := some ⟨4, "10:00", 1/2⟩, lastInjectionTime := 0 }
    ⟨4, "10:00", 1/2⟩ 5 ">> 01:04" ⟨0, 1, 4, []⟩ [((6 : ℚ), ">> 4f:82:10:00")]
    rfl rfl (by norm_num) (by norm_num [cfg0]) (by decide) (by decide) (by decide)
